import Mathlib

/-!
Verification development for the street aggregation engine of the geocore
repository (generator/streets/streets_builder.cpp and its collaborators).
Definitions are shallow embeddings of the C++ source; components of the
repository that are only declared elsewhere (headers, coding/, geometry/)
are modelled from the specification and marked as such in their doc comments.
-/

namespace Geocore

/-! ### Identity scheme -/

/-- Modelled from the spec: identity domains of `base::GeoObjectId` (absent from
src); native identities are derived from the original source record, surrogate
identities carry a distinct identity-space tag. -/
inductive GeoIdType where
  | osmNode
  | osmWay
  | osmRelation
  | osmSurrogate
deriving DecidableEq

/-- Modelled from the spec: a `base::GeoObjectId` is an identity-space tag plus a
serial number, so identities from distinct domains never collide. -/
structure GeoObjectId where
  idType : GeoIdType
  serial : Nat
deriving DecidableEq

/-- StreetsBuilder::NextOsmSurrogateId (streets_builder.cpp:310): pre-increment the
process-wide surrogate counter and return a surrogate identity carrying the new
counter value, paired with the updated counter. -/
def nextOsmSurrogateId (counter : Nat) : GeoObjectId × Nat :=
  (⟨GeoIdType.osmSurrogate, counter + 1⟩, counter + 1)

/-! ### Multilingual names -/

/-- Modelled from the spec: `StringUtf8Multilang` (absent from src) is a
multilingual name map from a language code to a display string. -/
structure StringUtf8Multilang where
  entries : List (Int × String)
deriving DecidableEq

def emptyMultilang : StringUtf8Multilang := ⟨[]⟩

/-- Modelled from the spec: inserting a name for a language code already present
overwrites the stored string; otherwise the new entry is appended. -/
def addStringAux : List (Int × String) → Int → String → List (Int × String)
  | [], code, nm => [(code, nm)]
  | (c, n) :: rest, code, nm =>
    if c = code then (c, nm) :: rest
    else (c, n) :: addStringAux rest code nm

def StringUtf8Multilang.addString (s : StringUtf8Multilang) (code : Int) (nm : String) :
    StringUtf8Multilang :=
  ⟨addStringAux s.entries code nm⟩

def lookupEntry : List (Int × String) → Int → Option String
  | [], _ => none
  | (c, n) :: rest, code => if c = code then some n else lookupEntry rest code

/-- Modelled from the spec: read the display string stored for a language code. -/
def StringUtf8Multilang.getString (s : StringUtf8Multilang) (code : Int) : Option String :=
  lookupEntry s.entries code

/-- ForEach of one multilang map feeding `AddString` of an accumulator, as in
MergeNames (streets_builder.cpp:260). -/
def addAll (m : StringUtf8Multilang) (l : List (Int × String)) : StringUtf8Multilang :=
  l.foldl (fun acc e => acc.addString e.1 e.2) m

/-- MergeNames (streets_builder.cpp:255): start from an empty map, add every entry
of `first`, then add every entry of `second`; entries of `second` therefore
overwrite entries of `first` on shared language codes. -/
def mergeNames (first second : StringUtf8Multilang) : StringUtf8Multilang :=
  addAll (addAll emptyMultilang first.entries) second.entries

/-- The list of language codes of a raw entry list. -/
def mlCodes (l : List (Int × String)) : List Int := l.map Prod.fst

/-- A well-formed multilang map stores at most one entry per language code; every
map built through `addString` is of this shape. -/
def StringUtf8Multilang.WF (s : StringUtf8Multilang) : Prop := (mlCodes s.entries).Nodup

instance (s : StringUtf8Multilang) : Decidable s.WF := by
  unfold StringUtf8Multilang.WF
  infer_instance

/-- Left-biased combination of optional results, mirroring which entry survives a
merge. -/
def optOr (a b : Option String) : Option String :=
  match a with
  | some x => some x
  | none => b

@[simp] theorem mlCodes_nil : mlCodes [] = [] := rfl

@[simp] theorem mlCodes_cons (a : Int) (b : String) (t : List (Int × String)) :
    mlCodes ((a, b) :: t) = a :: mlCodes t := rfl

@[simp] theorem optOr_some (x : String) (b : Option String) : optOr (some x) b = some x := rfl

@[simp] theorem optOr_none_left (b : Option String) : optOr none b = b := rfl

@[simp] theorem optOr_none_right (a : Option String) : optOr a none = a := by
  cases a <;> rfl

theorem lookupEntry_addStringAux (l : List (Int × String)) (code : Int) (nm : String)
    (c : Int) :
    lookupEntry (addStringAux l code nm) c = if c = code then some nm else lookupEntry l c := by
  induction l with
  | nil =>
    by_cases hc : c = code
    · subst hc
      simp [addStringAux, lookupEntry]
    · have hne : ¬(code = c) := fun h => hc h.symm
      simp [addStringAux, lookupEntry, hc, hne]
  | cons e rest ih =>
    obtain ⟨c0, n0⟩ := e
    by_cases h0 : c0 = code
    · subst h0
      have hred : addStringAux ((c0, n0) :: rest) c0 nm = (c0, nm) :: rest := by
        unfold addStringAux
        rw [if_pos rfl]
      rw [hred]
      by_cases hc : c = c0
      · subst hc
        simp [lookupEntry]
      · have hne : ¬(c0 = c) := fun h => hc h.symm
        simp [lookupEntry, hc, hne]
    · have hred : addStringAux ((c0, n0) :: rest) code nm
          = (c0, n0) :: addStringAux rest code nm := by
        show (if c0 = code then (c0, nm) :: rest else (c0, n0) :: addStringAux rest code nm)
            = (c0, n0) :: addStringAux rest code nm
        rw [if_neg h0]
      rw [hred]
      by_cases hc : c = c0
      · subst hc
        simp [lookupEntry, h0]
      · have hne : ¬(c0 = c) := fun h => hc h.symm
        simp [lookupEntry, hne, ih]

theorem mem_mlCodes_addStringAux (l : List (Int × String)) (code : Int) (nm : String)
    (c : Int) :
    c ∈ mlCodes (addStringAux l code nm) ↔ c ∈ mlCodes l ∨ c = code := by
  induction l with
  | nil => simp [addStringAux]
  | cons e rest ih =>
    obtain ⟨c0, n0⟩ := e
    by_cases h0 : c0 = code
    · subst h0
      have hred : addStringAux ((c0, n0) :: rest) c0 nm = (c0, nm) :: rest := by
        unfold addStringAux
        rw [if_pos rfl]
      rw [hred, mlCodes_cons, mlCodes_cons]
      simp only [List.mem_cons]
      tauto
    · have hred : addStringAux ((c0, n0) :: rest) code nm
          = (c0, n0) :: addStringAux rest code nm := by
        show (if c0 = code then (c0, nm) :: rest else (c0, n0) :: addStringAux rest code nm)
            = (c0, n0) :: addStringAux rest code nm
        rw [if_neg h0]
      rw [hred, mlCodes_cons, mlCodes_cons]
      simp only [List.mem_cons, ih]
      tauto

theorem nodup_mlCodes_addStringAux (l : List (Int × String)) (code : Int) (nm : String)
    (h : (mlCodes l).Nodup) : (mlCodes (addStringAux l code nm)).Nodup := by
  induction l with
  | nil => simp [addStringAux]
  | cons e rest ih =>
    obtain ⟨c0, n0⟩ := e
    rw [mlCodes_cons, List.nodup_cons] at h
    by_cases h0 : c0 = code
    · subst h0
      have hred : addStringAux ((c0, n0) :: rest) c0 nm = (c0, nm) :: rest := by
        unfold addStringAux
        rw [if_pos rfl]
      rw [hred, mlCodes_cons, List.nodup_cons]
      exact h
    · have hred : addStringAux ((c0, n0) :: rest) code nm
          = (c0, n0) :: addStringAux rest code nm := by
        show (if c0 = code then (c0, nm) :: rest else (c0, n0) :: addStringAux rest code nm)
            = (c0, n0) :: addStringAux rest code nm
        rw [if_neg h0]
      rw [hred, mlCodes_cons, List.nodup_cons]
      refine ⟨?_, ih h.2⟩
      intro hmem
      rcases (mem_mlCodes_addStringAux rest code nm c0).mp hmem with hin | heq
      · exact h.1 hin
      · exact h0 heq

theorem lookupEntry_eq_none_of_not_mem (l : List (Int × String)) (c : Int)
    (h : c ∉ mlCodes l) : lookupEntry l c = none := by
  induction l with
  | nil => rfl
  | cons e rest ih =>
    obtain ⟨c0, n0⟩ := e
    rw [mlCodes_cons, List.mem_cons] at h
    push_neg at h
    have hne : ¬(c0 = c) := fun hh => h.1 hh.symm
    simp only [lookupEntry, if_neg hne]
    exact ih h.2

theorem getString_addAll (l : List (Int × String)) :
    ∀ (m : List (Int × String)), (mlCodes l).Nodup → ∀ c : Int,
      lookupEntry (addAll ⟨m⟩ l).entries c = optOr (lookupEntry l c) (lookupEntry m c) := by
  induction l with
  | nil => intro m _ c; simp [addAll, lookupEntry]
  | cons e rest ih =>
    intro m hnd c
    obtain ⟨c0, n0⟩ := e
    rw [mlCodes_cons, List.nodup_cons] at hnd
    have hstep : addAll ⟨m⟩ ((c0, n0) :: rest) = addAll ⟨addStringAux m c0 n0⟩ rest := rfl
    rw [hstep, ih (addStringAux m c0 n0) hnd.2 c, lookupEntry_addStringAux]
    by_cases hc : c = c0
    · subst hc
      have hnone : lookupEntry rest c = none :=
        lookupEntry_eq_none_of_not_mem rest c hnd.1
      simp [lookupEntry, hnone]
    · have hne : ¬(c0 = c) := fun h => hc h.symm
      simp [lookupEntry, hc, hne]

theorem nodup_addAll (l : List (Int × String)) :
    ∀ (m : List (Int × String)), (mlCodes m).Nodup → (mlCodes (addAll ⟨m⟩ l).entries).Nodup := by
  induction l with
  | nil => intro m hm; exact hm
  | cons e rest ih =>
    intro m hm
    obtain ⟨c0, n0⟩ := e
    have hstep : addAll ⟨m⟩ ((c0, n0) :: rest) = addAll ⟨addStringAux m c0 n0⟩ rest := rfl
    rw [hstep]
    exact ih (addStringAux m c0 n0) (nodup_mlCodes_addStringAux m c0 n0 hm)

theorem mergeNames_WF (f s : StringUtf8Multilang) : (mergeNames f s).WF := by
  have h1 : (mlCodes (addAll ⟨[]⟩ f.entries).entries).Nodup :=
    nodup_addAll f.entries [] List.nodup_nil
  have h2 := nodup_addAll s.entries (addAll ⟨[]⟩ f.entries).entries h1
  exact h2

/-- Core merge law: on every language code, `mergeNames first second` holds the
entry of `second` when present there, else the entry of `first`. -/
theorem getString_mergeNames (f s : StringUtf8Multilang) (hf : f.WF) (hs : s.WF)
    (c : Int) :
    (mergeNames f s).getString c = optOr (s.getString c) (f.getString c) := by
  unfold StringUtf8Multilang.getString mergeNames
  rw [show addAll (addAll emptyMultilang f.entries) s.entries
      = addAll ⟨(addAll ⟨[]⟩ f.entries).entries⟩ s.entries from rfl]
  rw [getString_addAll s.entries (addAll ⟨[]⟩ f.entries).entries hs c]
  rw [getString_addAll f.entries [] hf c]
  rw [show lookupEntry ([] : List (Int × String)) c = none from rfl, optOr_none_right]

/-! ### Geometry model -/

/-- Planar coordinates; the engine only moves them around, so an exact numeric
carrier is irrelevant. -/
abbrev Point := Int × Int

/-- Modelled from the spec: the pin is a representative point plus the identity of
the source element that produced it. -/
structure Pin where
  m_position : Point
  m_osmId : GeoObjectId
deriving DecidableEq

/-- Modelled from the spec: one highway-line contribution, an identity mapped to an
ordered list of path segments. -/
structure HighwayLine where
  osmId : GeoObjectId
  m_segments : List (List Point)
deriving DecidableEq

/-- Modelled from the spec: one highway-area contribution, an identity mapped to a
polygon boundary. -/
structure AreaPart where
  osmId : GeoObjectId
  m_border : List Point
deriving DecidableEq

/-- Modelled from the spec: the Street Geometry Model (street_geometry, absent from
src) unites an optional pin, highway-line contributions, and area contributions. -/
structure StreetGeometry where
  pin : Option Pin
  lines : List HighwayLine
  areas : List AreaPart
deriving DecidableEq

def StreetGeometry.emptyGeom : StreetGeometry := ⟨none, [], []⟩

/-- Append a path segment to the line keyed by the given identity, creating the
entry when the identity is new. -/
def addSegmentToLines : List HighwayLine → GeoObjectId → List Point → List HighwayLine
  | [], k, path => [⟨k, [path]⟩]
  | l :: rest, k, path =>
    if l.osmId = k then ⟨l.osmId, l.m_segments ++ [path]⟩ :: rest
    else l :: addSegmentToLines rest k path

/-- Modelled from the spec: `addHighwayLine(identity, path)` supports incremental
addition of further segments and identities. -/
def StreetGeometry.addHighwayLine (g : StreetGeometry) (k : GeoObjectId) (path : List Point) :
    StreetGeometry :=
  { g with lines := addSegmentToLines g.lines k path }

/-- Modelled from the spec: `getOrChoosePin` returns the explicit pin if set, else
a deterministic fallback point derived from available line or area geometry. -/
def StreetGeometry.getOrChoosePin (g : StreetGeometry) : Pin :=
  match g.pin with
  | some p => p
  | none =>
    match g.lines with
    | l :: _ => ⟨(l.m_segments.headD []).headD (0, 0), l.osmId⟩
    | [] =>
      match g.areas with
      | a :: _ => ⟨a.m_border.headD (0, 0), a.osmId⟩
      | [] => ⟨(0, 0), ⟨GeoIdType.osmSurrogate, 0⟩⟩

/-- Modelled from the spec: GetHighwayGeometry yields geometry only after some
highway line or area contribution arrived. -/
def StreetGeometry.hasHighwayGeometry (g : StreetGeometry) : Bool :=
  !(g.lines.isEmpty && g.areas.isEmpty)

/-! ### Street registry -/

/-- A Street entity: merged multilingual name plus accumulated geometry
(streets_builder.hpp, shape read off the uses in streets_builder.cpp). -/
structure Street where
  m_name : StringUtf8Multilang
  m_geometry : StreetGeometry
deriving DecidableEq

def Street.emptyStreet : Street := ⟨emptyMultilang, StreetGeometry.emptyGeom⟩

def lookupAssoc {κ α : Type} [DecidableEq κ] : List (κ × α) → κ → Option α
  | [], _ => none
  | (k, v) :: rest, key => if k = key then some v else lookupAssoc rest key

/-- Look up the entry for `key`, apply `f` to it (creating it from default `d` when
absent), mirroring `operator[]` of std::map followed by a mutation. -/
def updateAssoc {κ α : Type} [DecidableEq κ] : List (κ × α) → κ → α → (α → α) → List (κ × α)
  | [], key, d, f => [(key, f d)]
  | (k, v) :: rest, key, d, f =>
    if k = key then (k, f v) :: rest else (k, v) :: updateAssoc rest key d f

theorem lookupAssoc_updateAssoc_self {κ α : Type} [DecidableEq κ]
    (l : List (κ × α)) (key : κ) (d : α) (f : α → α) :
    lookupAssoc (updateAssoc l key d f) key = some (f ((lookupAssoc l key).getD d)) := by
  induction l with
  | nil => simp [updateAssoc, lookupAssoc]
  | cons e rest ih =>
    obtain ⟨k, v⟩ := e
    by_cases hk : k = key
    · subst hk
      simp [updateAssoc, lookupAssoc]
    · simp [updateAssoc, lookupAssoc, hk, ih]

theorem lookupAssoc_updateAssoc_other {κ α : Type} [DecidableEq κ]
    (l : List (κ × α)) (key k2 : κ) (d : α) (f : α → α) (hne : k2 ≠ key) :
    lookupAssoc (updateAssoc l key d f) k2 = lookupAssoc l k2 := by
  induction l with
  | nil =>
    have hkk : ¬(key = k2) := fun h => hne h.symm
    simp [updateAssoc, lookupAssoc, hkk]
  | cons e rest ih =>
    obtain ⟨k, v⟩ := e
    by_cases hk : k = key
    · subst hk
      have hkk : ¬(k = k2) := fun h => hne h.symm
      simp [updateAssoc, lookupAssoc, hkk]
    · by_cases hk2 : k = k2
      · subst hk2
        simp [updateAssoc, lookupAssoc, hk]
      · simp [updateAssoc, lookupAssoc, hk, hk2, ih]

/-- Per-region street table: street name to Street. -/
abbrev RegionStreets := List (String × Street)

/-- The registry m_regions: region identity to per-region street table. -/
abbrev Registry := List (Nat × RegionStreets)

/-- Look up or create the street table of a region, then look up or create a
street and apply a mutation to it, as the two `operator[]` steps of InsertStreet
(streets_builder.cpp:271) followed by a mutation of the returned reference. -/
def modifyStreet (regs : Registry) (regionId : Nat) (streetName : String)
    (f : Street → Street) : Registry :=
  updateAssoc regs regionId []
    (fun streets => updateAssoc streets streetName Street.emptyStreet f)

/-- StreetsBuilder::InsertStreet (streets_builder.cpp:268): look up or create the
Street for (regionId, streetName) and replace its name with
`mergeNames incoming stored`. -/
def insertStreet (regs : Registry) (regionId : Nat) (streetName : String)
    (multilangName : StringUtf8Multilang) : Registry :=
  modifyStreet regs regionId streetName
    (fun street => { street with m_name := mergeNames multilangName street.m_name })

def getStreet? (regs : Registry) (regionId : Nat) (streetName : String) : Option Street :=
  match lookupAssoc regs regionId with
  | none => none
  | some streets => lookupAssoc streets streetName

theorem getStreet?_modifyStreet_self (regs : Registry) (rid : Nat) (nm : String)
    (f : Street → Street) :
    getStreet? (modifyStreet regs rid nm f) rid nm
      = some (f ((getStreet? regs rid nm).getD Street.emptyStreet)) := by
  unfold getStreet? modifyStreet
  rw [lookupAssoc_updateAssoc_self]
  cases hreg : lookupAssoc regs rid with
  | none => simp [lookupAssoc_updateAssoc_self, lookupAssoc, updateAssoc]
  | some streets => simp [lookupAssoc_updateAssoc_self]

theorem getStreet?_modifyStreet_other (regs : Registry) (rid : Nat) (nm : String)
    (f : Street → Street) (rid2 : Nat) (nm2 : String)
    (hne : rid2 ≠ rid ∨ nm2 ≠ nm) :
    getStreet? (modifyStreet regs rid nm f) rid2 nm2 = getStreet? regs rid2 nm2 := by
  unfold getStreet? modifyStreet
  by_cases hr : rid2 = rid
  · subst hr
    rcases hne with hne | hne
    · exact absurd rfl hne
    · rw [lookupAssoc_updateAssoc_self]
      cases hreg : lookupAssoc regs rid2 with
      | none =>
        have hkk : ¬(nm = nm2) := fun h => hne h.symm
        simp [lookupAssoc, updateAssoc, hkk]
      | some streets => simp [lookupAssoc_updateAssoc_other _ _ _ _ _ hne]
  · rw [lookupAssoc_updateAssoc_other _ _ _ _ _ hr]

theorem getString_insertStreet (regs : Registry) (rid : Nat) (nm : String)
    (m : StringUtf8Multilang) (c : Int) (hm : m.WF)
    (hstored : ((getStreet? regs rid nm).getD Street.emptyStreet).m_name.WF) :
    (getStreet? (insertStreet regs rid nm m) rid nm).map (fun st => st.m_name.getString c)
      = some (optOr (((getStreet? regs rid nm).getD Street.emptyStreet).m_name.getString c)
                    (m.getString c)) := by
  unfold insertStreet
  rw [getStreet?_modifyStreet_self]
  exact congrArg some (getString_mergeNames m _ hm hstored c)

theorem getStreet?_insertStreet_self (regs : Registry) (rid : Nat) (nm : String)
    (m : StringUtf8Multilang) :
    getStreet? (insertStreet regs rid nm m) rid nm
      = some { (getStreet? regs rid nm).getD Street.emptyStreet with
               m_name := mergeNames m ((getStreet? regs rid nm).getD Street.emptyStreet).m_name } :=
  getStreet?_modifyStreet_self regs rid nm _

/-! ### Claim C2 -/

def c2Stored : StringUtf8Multilang := ⟨[(0, "Old")]⟩

def c2Incoming : StringUtf8Multilang := ⟨[(0, "New")]⟩

def c2Registry : Registry := insertStreet (insertStreet [] 7 "Main" c2Stored) 7 "Main" c2Incoming

/-- C2 counterexample: a street stored with default-language name "Old" that
receives an incoming element whose name map carries "New" for the same language
code keeps the stored string "Old" — the incoming entry does not overwrite the
stored one, refuting the claim at this input. -/
theorem c2_counterexample :
    (getStreet? c2Registry 7 "Main").map (fun st => st.m_name.getString 0) = some (some "Old")
      ∧ some (some "Old") ≠ (some (some "New") : Option (Option String)) := by
  constructor
  · decide
  · decide

/-- C2 (amended): merging the incoming multilingual name map into the Street's
existing map keeps, for each language code present in both, the stored string
(the stored entry survives), while codes absent from the stored map are taken
from the incoming element. -/
theorem c2_insertStreet_stored_entry_survives (regs : Registry) (rid : Nat) (nm : String)
    (m : StringUtf8Multilang) (c : Int) (hm : m.WF)
    (hstored : ((getStreet? regs rid nm).getD Street.emptyStreet).m_name.WF) :
    (getStreet? (insertStreet regs rid nm m) rid nm).map (fun st => st.m_name.getString c)
      = some (optOr (((getStreet? regs rid nm).getD Street.emptyStreet).m_name.getString c)
                    (m.getString c)) :=
  getString_insertStreet regs rid nm m c hm hstored

/-- C2 witness: the amended theorem applied at a concrete registry and input. -/
theorem c2_witness :
    (⟨[(0, "X")]⟩ : StringUtf8Multilang).WF
      ∧ ((getStreet? [] 1 "S").getD Street.emptyStreet).m_name.WF
      ∧ (getStreet? (insertStreet [] 1 "S" ⟨[(0, "X")]⟩) 1 "S").map
            (fun st => st.m_name.getString 0)
          = some (optOr (((getStreet? [] 1 "S").getD Street.emptyStreet).m_name.getString 0)
                        ((⟨[(0, "X")]⟩ : StringUtf8Multilang).getString 0)) :=
  ⟨by decide, by decide,
    c2_insertStreet_stored_entry_survives [] 1 "S" ⟨[(0, "X")]⟩ 0 (by decide) (by decide)⟩

/-! ### Claim C3 -/

def c3A : StringUtf8Multilang := ⟨[(0, "X")]⟩

def c3B : StringUtf8Multilang := ⟨[(0, "Y")]⟩

/-- C3 counterexample: two source elements whose name maps disagree on the same
language code produce different final name maps depending on processing order,
refuting commutativity of the merge as claimed. -/
theorem c3_counterexample :
    (getStreet? (insertStreet (insertStreet [] 3 "R" c3A) 3 "R" c3B) 3 "R").map
        (fun st => st.m_name.getString 0)
      ≠ (getStreet? (insertStreet (insertStreet [] 3 "R" c3B) 3 "R" c3A) 3 "R").map
        (fun st => st.m_name.getString 0) := by
  decide

/-- C3 (amended): processing two source elements for the same (region, name) pair
in either order yields the same final name map provided the two incoming name
maps agree on every language code stored in both; with disagreeing entries the
first-processed element wins, so the merge is not commutative in general. -/
theorem c3_insert_order_commutes_when_agree (regs : Registry) (rid : Nat) (nm : String)
    (a b : StringUtf8Multilang) (c : Int) (ha : a.WF) (hb : b.WF)
    (hstored : ((getStreet? regs rid nm).getD Street.emptyStreet).m_name.WF)
    (hagree : ∀ c2 v w, a.getString c2 = some v → b.getString c2 = some w → v = w) :
    (getStreet? (insertStreet (insertStreet regs rid nm a) rid nm b) rid nm).map
        (fun st => st.m_name.getString c)
      = (getStreet? (insertStreet (insertStreet regs rid nm b) rid nm a) rid nm).map
        (fun st => st.m_name.getString c) := by
  have hLa := getStreet?_insertStreet_self regs rid nm a
  have hLb := getStreet?_insertStreet_self regs rid nm b
  have hwfa : ((getStreet? (insertStreet regs rid nm a) rid nm).getD
      Street.emptyStreet).m_name.WF := by
    rw [hLa]
    exact mergeNames_WF a _
  have hwfb : ((getStreet? (insertStreet regs rid nm b) rid nm).getD
      Street.emptyStreet).m_name.WF := by
    rw [hLb]
    exact mergeNames_WF b _
  rw [getString_insertStreet (insertStreet regs rid nm a) rid nm b c hb hwfa]
  rw [getString_insertStreet (insertStreet regs rid nm b) rid nm a c ha hwfb]
  rw [hLa, hLb]
  simp only [Option.getD_some]
  rw [getString_mergeNames a _ ha hstored, getString_mergeNames b _ hb hstored]
  cases hs : (((getStreet? regs rid nm).getD Street.emptyStreet).m_name.getString c) with
  | some x => simp
  | none =>
    simp only [optOr_none_left]
    cases hac : a.getString c with
    | none => simp
    | some v =>
      cases hbc : b.getString c with
      | none => simp
      | some w =>
        have hvw : v = w := hagree c v w hac hbc
        subst hvw
        rfl

/-- C3 witness: the amended theorem applied with two concrete agreeing name maps. -/
theorem c3_witness :
    c3A.WF ∧ c3A.WF
      ∧ ((getStreet? [] 3 "R").getD Street.emptyStreet).m_name.WF
      ∧ (∀ c2 v w, c3A.getString c2 = some v → c3A.getString c2 = some w → v = w)
      ∧ (getStreet? (insertStreet (insertStreet [] 3 "R" c3A) 3 "R" c3A) 3 "R").map
            (fun st => st.m_name.getString 0)
          = (getStreet? (insertStreet (insertStreet [] 3 "R" c3A) 3 "R" c3A) 3 "R").map
            (fun st => st.m_name.getString 0) :=
  ⟨by decide, by decide, by decide,
    fun c2 v w hv hw => by
      rw [hv] at hw
      exact Option.some.inj hw,
    c3_insert_order_commutes_when_agree [] 3 "R" c3A c3A 0 (by decide) (by decide) (by decide)
      (fun c2 v w hv hw => by
        rw [hv] at hw
        exact Option.some.inj hw)⟩

/-! ### Feature records and the builder state -/

inductive FeatureGeom where
  | point (p : Point)
  | line (points : List Point)
  | area (border : List Point)
deriving DecidableEq

/-- Modelled from the spec: a raw feature record carries a multilingual name, a
native identity (its most generic osm id), a geometry, and classifier types. -/
structure FeatureBuilder where
  fbMultilangName : StringUtf8Multilang
  osmId : GeoObjectId
  geom : FeatureGeom
  fbTypes : List Nat
deriving DecidableEq

/-- Modelled from the spec: StringUtf8Multilang::kDefaultCode, the default
language code of a name map. -/
def kDefaultCode : Int := 0

/-- Modelled from the spec: FeatureBuilder::GetName yields the default-language
display string of the feature's name map, empty when absent. -/
def FeatureBuilder.getName (fb : FeatureBuilder) : String :=
  (fb.fbMultilangName.getString kDefaultCode).getD ""

/-- A Street handle: streets are owned by the registry map nodes, so the
(region identity, street name) pair identifies a Street uniquely and stably. -/
abbrev StreetKey := Nat × String

/-- The reverse index m_streetFeatures2Streets: raw element identity to owning
street handle. -/
abbrev StreetIndex := List (GeoObjectId × StreetKey)

/-- emplace on the reverse index (streets_builder.cpp:187): inserts an entry only
when the key is absent, as std::unordered_map::emplace does. -/
def emplaceIndex (idx : StreetIndex) (k : GeoObjectId) (v : StreetKey) : StreetIndex :=
  match lookupAssoc idx k with
  | some _ => idx
  | none => idx ++ [(k, v)]

/-- The mutable state of StreetsBuilder: the registry, the reverse index, and the
surrogate-identity counter. -/
structure StreetsBuilderState where
  m_regions : Registry
  m_streetFeatures2Streets : StreetIndex
  m_osmSurrogateCounter : Nat
deriving DecidableEq

/-- Modelled from the spec: one traced path segment, carrying the identity of its
resolved owning region and its path (street_regions_tracing, absent from src). -/
structure PathSegment where
  m_region : Nat
  m_path : List Point
deriving DecidableEq

/-- Loop body of StreetsBuilder::AddStreetHighway (streets_builder.cpp:180):
insert/merge the street of the segment's region, choose the contribution
identity (the native identity when tracing produced exactly one segment, a fresh
surrogate otherwise), add the path as a highway-line contribution under it, and
emplace a reverse-index entry keyed by the element's most generic identity. -/
def addStreetHighwayStep (fb : FeatureBuilder) (segmentCount : Nat)
    (st : StreetsBuilderState) (seg : PathSegment) : StreetsBuilderState :=
  let regs1 := insertStreet st.m_regions seg.m_region fb.getName fb.fbMultilangName
  let chosen :=
    if segmentCount = 1 then (fb.osmId, st.m_osmSurrogateCounter)
    else nextOsmSurrogateId st.m_osmSurrogateCounter
  let regs2 := modifyStreet regs1 seg.m_region fb.getName
    (fun s => { s with m_geometry := s.m_geometry.addHighwayLine chosen.1 seg.m_path })
  { m_regions := regs2
    m_streetFeatures2Streets :=
      emplaceIndex st.m_streetFeatures2Streets fb.osmId (seg.m_region, fb.getName)
    m_osmSurrogateCounter := chosen.2 }

/-- StreetsBuilder::AddStreetHighway (streets_builder.cpp:170): fold the loop body
over the traced path segments. -/
def addStreetHighway (fb : FeatureBuilder) (pathSegments : List PathSegment)
    (st : StreetsBuilderState) : StreetsBuilderState :=
  pathSegments.foldl (addStreetHighwayStep fb pathSegments.length) st

/-- All path segments stored in a line list under a given contribution identity. -/
def flatSegments (ls : List HighwayLine) (k : GeoObjectId) : List (List Point) :=
  ((ls.filter (fun l2 => l2.osmId == k)).map (fun l2 => l2.m_segments)).flatten

/-- The path segments stored for the street at (regionId, streetName) under a
given contribution identity. -/
def segmentsUnderKey (regs : Registry) (regionId : Nat) (streetName : String)
    (k : GeoObjectId) : List (List Point) :=
  match getStreet? regs regionId streetName with
  | none => []
  | some st => flatSegments st.m_geometry.lines k

theorem flatSegments_nil (k : GeoObjectId) : flatSegments [] k = [] := rfl

theorem flatSegments_cons (l0 : HighwayLine) (rest : List HighwayLine) (k : GeoObjectId) :
    flatSegments (l0 :: rest) k
      = if l0.osmId = k then l0.m_segments ++ flatSegments rest k else flatSegments rest k := by
  by_cases h : l0.osmId = k
  · simp [flatSegments, List.filter_cons, h]
  · simp [flatSegments, List.filter_cons, h]

theorem mem_flatSegments_add_self (ls : List HighwayLine) (k : GeoObjectId)
    (path : List Point) :
    path ∈ flatSegments (addSegmentToLines ls k path) k := by
  induction ls with
  | nil =>
    rw [show addSegmentToLines [] k path = [⟨k, [path]⟩] from rfl, flatSegments_cons]
    simp [flatSegments_nil]
  | cons l0 rest ih =>
    by_cases hk : l0.osmId = k
    · rw [show addSegmentToLines (l0 :: rest) k path
          = ⟨l0.osmId, l0.m_segments ++ [path]⟩ :: rest from by
            show (if l0.osmId = k then (⟨l0.osmId, l0.m_segments ++ [path]⟩ : HighwayLine) :: rest
                else l0 :: addSegmentToLines rest k path) = _
            rw [if_pos hk]]
      rw [flatSegments_cons]
      simp [hk]
    · rw [show addSegmentToLines (l0 :: rest) k path
          = l0 :: addSegmentToLines rest k path from by
            show (if l0.osmId = k then (⟨l0.osmId, l0.m_segments ++ [path]⟩ : HighwayLine) :: rest
                else l0 :: addSegmentToLines rest k path) = _
            rw [if_neg hk]]
      rw [flatSegments_cons, if_neg hk]
      exact ih

theorem mem_flatSegments_add_mono (ls : List HighwayLine) (k k2 : GeoObjectId)
    (path x : List Point) (hx : x ∈ flatSegments ls k2) :
    x ∈ flatSegments (addSegmentToLines ls k path) k2 := by
  induction ls with
  | nil =>
    rw [flatSegments_nil] at hx
    cases hx
  | cons l0 rest ih =>
    rw [flatSegments_cons] at hx
    by_cases hk : l0.osmId = k
    · rw [show addSegmentToLines (l0 :: rest) k path
          = ⟨l0.osmId, l0.m_segments ++ [path]⟩ :: rest from by
            show (if l0.osmId = k then (⟨l0.osmId, l0.m_segments ++ [path]⟩ : HighwayLine) :: rest
                else l0 :: addSegmentToLines rest k path) = _
            rw [if_pos hk]]
      rw [flatSegments_cons]
      simp only [show (⟨l0.osmId, l0.m_segments ++ [path]⟩ : HighwayLine).osmId = l0.osmId
          from rfl,
        show (⟨l0.osmId, l0.m_segments ++ [path]⟩ : HighwayLine).m_segments
            = l0.m_segments ++ [path] from rfl]
      by_cases h2 : l0.osmId = k2
      · rw [if_pos h2] at hx
        rw [if_pos h2]
        rw [List.mem_append] at hx
        rw [List.mem_append]
        rcases hx with hx | hx
        · left
          rw [List.mem_append]
          exact Or.inl hx
        · right
          exact hx
      · rw [if_neg h2] at hx
        rw [if_neg h2]
        exact hx
    · rw [show addSegmentToLines (l0 :: rest) k path
          = l0 :: addSegmentToLines rest k path from by
            show (if l0.osmId = k then (⟨l0.osmId, l0.m_segments ++ [path]⟩ : HighwayLine) :: rest
                else l0 :: addSegmentToLines rest k path) = _
            rw [if_neg hk]]
      rw [flatSegments_cons]
      by_cases h2 : l0.osmId = k2
      · rw [if_pos h2] at hx
        rw [if_pos h2, List.mem_append]
        rw [List.mem_append] at hx
        rcases hx with hx | hx
        · exact Or.inl hx
        · exact Or.inr (ih hx)
      · rw [if_neg h2] at hx
        rw [if_neg h2]
        exact ih hx

theorem flatSegments_add_other (ls : List HighwayLine) (k k2 : GeoObjectId)
    (path : List Point) (h : k ≠ k2) :
    flatSegments (addSegmentToLines ls k path) k2 = flatSegments ls k2 := by
  induction ls with
  | nil =>
    rw [show addSegmentToLines [] k path = [⟨k, [path]⟩] from rfl, flatSegments_cons]
    rw [if_neg h]
  | cons l0 rest ih =>
    by_cases hk : l0.osmId = k
    · rw [show addSegmentToLines (l0 :: rest) k path
          = ⟨l0.osmId, l0.m_segments ++ [path]⟩ :: rest from by
            show (if l0.osmId = k then (⟨l0.osmId, l0.m_segments ++ [path]⟩ : HighwayLine) :: rest
                else l0 :: addSegmentToLines rest k path) = _
            rw [if_pos hk]]
      rw [flatSegments_cons, flatSegments_cons]
      have h2 : ¬(l0.osmId = k2) := by
        rw [hk]
        exact h
      simp only [show (⟨l0.osmId, l0.m_segments ++ [path]⟩ : HighwayLine).osmId = l0.osmId
          from rfl]
      rw [if_neg h2, if_neg h2]
    · rw [show addSegmentToLines (l0 :: rest) k path
          = l0 :: addSegmentToLines rest k path from by
            show (if l0.osmId = k then (⟨l0.osmId, l0.m_segments ++ [path]⟩ : HighwayLine) :: rest
                else l0 :: addSegmentToLines rest k path) = _
            rw [if_neg hk]]
      rw [flatSegments_cons, flatSegments_cons, ih]

theorem segmentsUnderKey_insertStreet (regs : Registry) (r0 : Nat) (n0 : String)
    (m : StringUtf8Multilang) (r : Nat) (nm : String) (k : GeoObjectId) :
    segmentsUnderKey (insertStreet regs r0 n0 m) r nm k = segmentsUnderKey regs r nm k := by
  by_cases hsame : r = r0 ∧ nm = n0
  · obtain ⟨hr, hn⟩ := hsame
    subst hr
    subst hn
    unfold segmentsUnderKey
    rw [getStreet?_insertStreet_self]
    cases hq : getStreet? regs r nm with
    | none => simp [hq, Street.emptyStreet, StreetGeometry.emptyGeom, flatSegments_nil]
    | some st0 => simp [hq]
  · push_neg at hsame
    have hor : r ≠ r0 ∨ nm ≠ n0 := by
      by_cases hr : r = r0
      · exact Or.inr (hsame hr)
      · exact Or.inl hr
    unfold segmentsUnderKey insertStreet
    rw [getStreet?_modifyStreet_other _ _ _ _ _ _ hor]

theorem segmentsUnderKey_addLine_self (regs : Registry) (r : Nat) (nm : String)
    (key : GeoObjectId) (path : List Point) (k : GeoObjectId) :
    segmentsUnderKey (modifyStreet regs r nm
        (fun s => { s with m_geometry := s.m_geometry.addHighwayLine key path })) r nm k
      = flatSegments (addSegmentToLines
          (((getStreet? regs r nm).getD Street.emptyStreet).m_geometry.lines) key path) k := by
  unfold segmentsUnderKey
  rw [getStreet?_modifyStreet_self]
  rfl

theorem segmentsUnderKey_addLine_other (regs : Registry) (r0 : Nat) (n0 : String)
    (key : GeoObjectId) (path : List Point) (r : Nat) (nm : String) (k : GeoObjectId)
    (hor : r ≠ r0 ∨ nm ≠ n0) :
    segmentsUnderKey (modifyStreet regs r0 n0
        (fun s => { s with m_geometry := s.m_geometry.addHighwayLine key path })) r nm k
      = segmentsUnderKey regs r nm k := by
  unfold segmentsUnderKey
  rw [getStreet?_modifyStreet_other _ _ _ _ _ _ hor]

theorem counter_foldl_addStreetHighwayStep (fb : FeatureBuilder) (n : Nat)
    (segs : List PathSegment) :
    ∀ st : StreetsBuilderState,
      (segs.foldl (addStreetHighwayStep fb n) st).m_osmSurrogateCounter
        = st.m_osmSurrogateCounter + (if n = 1 then 0 else segs.length) := by
  induction segs with
  | nil => intro st; simp
  | cons seg rest ih =>
    intro st
    rw [List.foldl_cons, ih]
    by_cases hn : n = 1
    · simp [addStreetHighwayStep, hn]
    · simp only [addStreetHighwayStep, nextOsmSurrogateId, if_neg hn, List.length_cons]
      omega

theorem index_foldl_addStreetHighwayStep (fb : FeatureBuilder) (n : Nat)
    (segs : List PathSegment) :
    ∀ st : StreetsBuilderState,
      (segs.foldl (addStreetHighwayStep fb n) st).m_streetFeatures2Streets
        = segs.foldl (fun idx seg => emplaceIndex idx fb.osmId (seg.m_region, fb.getName))
            st.m_streetFeatures2Streets := by
  induction segs with
  | nil => intro st; rfl
  | cons seg rest ih =>
    intro st
    rw [List.foldl_cons, List.foldl_cons, ih]
    rfl

theorem lookupAssoc_append_right {κ α : Type} [DecidableEq κ]
    (l : List (κ × α)) (k : κ) (v : α) (h : lookupAssoc l k = none) :
    lookupAssoc (l ++ [(k, v)]) k = some v := by
  induction l with
  | nil => simp [lookupAssoc]
  | cons e rest ih =>
    obtain ⟨k0, v0⟩ := e
    by_cases hk : k0 = k
    · subst hk
      simp [lookupAssoc] at h
    · simp only [List.cons_append, lookupAssoc, if_neg hk] at h ⊢
      exact ih h

theorem lookupAssoc_append_other {κ α : Type} [DecidableEq κ]
    (l : List (κ × α)) (k k2 : κ) (v : α) (h : k2 ≠ k) :
    lookupAssoc (l ++ [(k, v)]) k2 = lookupAssoc l k2 := by
  induction l with
  | nil =>
    have hkk : ¬(k = k2) := fun hh => h hh.symm
    simp [lookupAssoc, hkk]
  | cons e rest ih =>
    obtain ⟨k0, v0⟩ := e
    by_cases hk : k0 = k2 <;> simp [lookupAssoc, hk, ih]

theorem lookupAssoc_emplaceIndex_self (idx : StreetIndex) (k : GeoObjectId) (v : StreetKey) :
    lookupAssoc (emplaceIndex idx k v) k = some ((lookupAssoc idx k).getD v) := by
  unfold emplaceIndex
  cases h : lookupAssoc idx k with
  | some w => simp [h]
  | none => simp [lookupAssoc_append_right idx k v h]

theorem lookupAssoc_emplaceIndex_other (idx : StreetIndex) (k k2 : GeoObjectId)
    (v : StreetKey) (h : k2 ≠ k) :
    lookupAssoc (emplaceIndex idx k v) k2 = lookupAssoc idx k2 := by
  unfold emplaceIndex
  cases hq : lookupAssoc idx k with
  | some w => rfl
  | none => exact lookupAssoc_append_other idx k k2 v h

theorem foldl_emplace_same_key (fb : FeatureBuilder) (segs : List PathSegment) :
    ∀ idx : StreetIndex, lookupAssoc idx fb.osmId ≠ none →
      segs.foldl (fun idx2 seg => emplaceIndex idx2 fb.osmId (seg.m_region, fb.getName)) idx
        = idx := by
  induction segs with
  | nil => intro idx _; rfl
  | cons seg rest ih =>
    intro idx h
    rw [List.foldl_cons]
    have hempl : emplaceIndex idx fb.osmId (seg.m_region, fb.getName) = idx := by
      unfold emplaceIndex
      cases hq : lookupAssoc idx fb.osmId with
      | some w => rfl
      | none => exact absurd hq h
    rw [hempl]
    exact ih idx h

/-! ### Claim C4 -/

def c4Name : StringUtf8Multilang := ⟨[(0, "Main")]⟩

def c4Feature : FeatureBuilder :=
  ⟨c4Name, ⟨GeoIdType.osmWay, 7⟩, FeatureGeom.line [(0, 0), (2, 0)], []⟩

def c4Segments : List PathSegment := [⟨1, [(0, 0), (1, 0)]⟩, ⟨2, [(1, 0), (2, 0)]⟩]

def c4State : StreetsBuilderState := addStreetHighway c4Feature c4Segments ⟨[], [], 0⟩

/-- C4 counterexample: a line feature traced into two segments mints surrogate
identities 1 and 2 (the counter reaches 2 and segment one is stored under
surrogate 1), yet the reverse index holds no entry for either surrogate — it
only maps the native identity to the street of the first segment, refuting the
claim that every surrogate identity gains a reverse-index entry. -/
theorem c4_counterexample :
    c4State.m_osmSurrogateCounter = 2
      ∧ segmentsUnderKey c4State.m_regions 1 "Main" ⟨GeoIdType.osmSurrogate, 1⟩
          = [[(0, 0), (1, 0)]]
      ∧ lookupAssoc c4State.m_streetFeatures2Streets ⟨GeoIdType.osmSurrogate, 1⟩ = none
      ∧ lookupAssoc c4State.m_streetFeatures2Streets ⟨GeoIdType.osmSurrogate, 2⟩ = none
      ∧ lookupAssoc c4State.m_streetFeatures2Streets ⟨GeoIdType.osmWay, 7⟩
          = some (1, "Main") := by
  decide

/-- C4 (amended): after AddStreetHighway on a nonempty segment list, the reverse
index maps the element's native identity (when previously absent) to the street
of the first traced segment, and no other key — in particular no freshly minted
surrogate identity — is added to the reverse index. -/
theorem c4_reverse_index_records_native_only (fb : FeatureBuilder)
    (segs : List PathSegment) (st : StreetsBuilderState)
    (hne : segs ≠ [])
    (habs : lookupAssoc st.m_streetFeatures2Streets fb.osmId = none) :
    lookupAssoc (addStreetHighway fb segs st).m_streetFeatures2Streets fb.osmId
        = some ((segs.headD ⟨0, []⟩).m_region, fb.getName)
      ∧ ∀ k : GeoObjectId, k ≠ fb.osmId →
          lookupAssoc (addStreetHighway fb segs st).m_streetFeatures2Streets k
            = lookupAssoc st.m_streetFeatures2Streets k := by
  unfold addStreetHighway
  rw [index_foldl_addStreetHighwayStep]
  cases segs with
  | nil => exact absurd rfl hne
  | cons seg rest =>
    rw [List.foldl_cons]
    have hfirst : emplaceIndex st.m_streetFeatures2Streets fb.osmId (seg.m_region, fb.getName)
        = st.m_streetFeatures2Streets ++ [(fb.osmId, (seg.m_region, fb.getName))] := by
      unfold emplaceIndex
      rw [habs]
    rw [hfirst]
    have hrest := foldl_emplace_same_key fb rest
      (st.m_streetFeatures2Streets ++ [(fb.osmId, (seg.m_region, fb.getName))])
      (by
        rw [lookupAssoc_append_right _ _ _ habs]
        intro hcontra
        cases hcontra)
    rw [hrest]
    constructor
    · rw [lookupAssoc_append_right _ _ _ habs]
      simp
    · intro k hk
      exact lookupAssoc_append_other _ _ _ _ hk

/-- C4 witness: the amended theorem applied at the concrete two-segment input. -/
theorem c4_witness :
    c4Segments ≠ []
      ∧ lookupAssoc (⟨[], [], 0⟩ : StreetsBuilderState).m_streetFeatures2Streets c4Feature.osmId
          = none
      ∧ (lookupAssoc (addStreetHighway c4Feature c4Segments
              ⟨[], [], 0⟩).m_streetFeatures2Streets c4Feature.osmId
            = some ((c4Segments.headD ⟨0, []⟩).m_region, c4Feature.getName)
          ∧ ∀ k : GeoObjectId, k ≠ c4Feature.osmId →
              lookupAssoc (addStreetHighway c4Feature c4Segments
                  ⟨[], [], 0⟩).m_streetFeatures2Streets k
                = lookupAssoc (⟨[], [], 0⟩ : StreetsBuilderState).m_streetFeatures2Streets k) :=
  ⟨by decide, by decide,
    c4_reverse_index_records_native_only c4Feature c4Segments ⟨[], [], 0⟩ (by decide) (by decide)⟩

/-! ### Claim C5 -/

theorem segmentsUnderKey_eq_flat (regs : Registry) (r : Nat) (nm : String) (k : GeoObjectId) :
    segmentsUnderKey regs r nm k
      = flatSegments ((getStreet? regs r nm).getD Street.emptyStreet).m_geometry.lines k := by
  unfold segmentsUnderKey
  cases h : getStreet? regs r nm with
  | none => simp [Street.emptyStreet, StreetGeometry.emptyGeom, flatSegments_nil]
  | some st => simp

/-- The contribution identity chosen by the AddStreetHighway loop body
(streets_builder.cpp:184): native when exactly one segment was traced, a fresh
surrogate otherwise. -/
def chosenLineKey (fb : FeatureBuilder) (segmentCount : Nat) (counter : Nat) : GeoObjectId :=
  if segmentCount = 1 then fb.osmId else ⟨GeoIdType.osmSurrogate, counter + 1⟩

theorem addStreetHighwayStep_m_regions (fb : FeatureBuilder) (n : Nat)
    (st : StreetsBuilderState) (seg : PathSegment) :
    (addStreetHighwayStep fb n st seg).m_regions
      = modifyStreet (insertStreet st.m_regions seg.m_region fb.getName fb.fbMultilangName)
          seg.m_region fb.getName
          (fun s => { s with m_geometry := s.m_geometry.addHighwayLine (chosenLineKey fb n st.m_osmSurrogateCounter) seg.m_path }) := by
  by_cases hn : n = 1
  · simp [addStreetHighwayStep, chosenLineKey, hn]
  · simp [addStreetHighwayStep, chosenLineKey, nextOsmSurrogateId, hn]

theorem addStreetHighwayStep_counter (fb : FeatureBuilder) (n : Nat)
    (st : StreetsBuilderState) (seg : PathSegment) (hn : n ≠ 1) :
    (addStreetHighwayStep fb n st seg).m_osmSurrogateCounter
      = st.m_osmSurrogateCounter + 1 := by
  simp [addStreetHighwayStep, nextOsmSurrogateId, hn]

theorem insertStreet_geometry_lines (regs : Registry) (r : Nat) (nm : String)
    (m : StringUtf8Multilang) :
    ((getStreet? (insertStreet regs r nm m) r nm).getD Street.emptyStreet).m_geometry.lines
      = ((getStreet? regs r nm).getD Street.emptyStreet).m_geometry.lines := by
  rw [getStreet?_insertStreet_self]
  rfl

theorem addStreetHighwayStep_adds (fb : FeatureBuilder) (n : Nat)
    (st : StreetsBuilderState) (seg : PathSegment) :
    seg.m_path ∈ segmentsUnderKey (addStreetHighwayStep fb n st seg).m_regions
      seg.m_region fb.getName (chosenLineKey fb n st.m_osmSurrogateCounter) := by
  rw [addStreetHighwayStep_m_regions, segmentsUnderKey_addLine_self]
  exact mem_flatSegments_add_self _ _ _

theorem addStreetHighwayStep_mono (fb : FeatureBuilder) (n : Nat)
    (st : StreetsBuilderState) (seg : PathSegment) (r : Nat) (nm : String)
    (k : GeoObjectId) (x : List Point)
    (hx : x ∈ segmentsUnderKey st.m_regions r nm k) :
    x ∈ segmentsUnderKey (addStreetHighwayStep fb n st seg).m_regions r nm k := by
  rw [addStreetHighwayStep_m_regions]
  by_cases hsame : r = seg.m_region ∧ nm = fb.getName
  · obtain ⟨hr, hnm⟩ := hsame
    subst hr
    subst hnm
    rw [segmentsUnderKey_addLine_self, insertStreet_geometry_lines]
    rw [segmentsUnderKey_eq_flat] at hx
    exact mem_flatSegments_add_mono _ _ _ _ _ hx
  · push_neg at hsame
    have hor : r ≠ seg.m_region ∨ nm ≠ fb.getName := by
      by_cases hr : r = seg.m_region
      · exact Or.inr (hsame hr)
      · exact Or.inl hr
    rw [segmentsUnderKey_addLine_other _ _ _ _ _ _ _ _ hor, segmentsUnderKey_insertStreet]
    exact hx

theorem addStreetHighwayStep_other_key (fb : FeatureBuilder) (n : Nat)
    (st : StreetsBuilderState) (seg : PathSegment) (r : Nat) (nm : String)
    (k : GeoObjectId) (hk : chosenLineKey fb n st.m_osmSurrogateCounter ≠ k) :
    segmentsUnderKey (addStreetHighwayStep fb n st seg).m_regions r nm k
      = segmentsUnderKey st.m_regions r nm k := by
  rw [addStreetHighwayStep_m_regions]
  by_cases hsame : r = seg.m_region ∧ nm = fb.getName
  · obtain ⟨hr, hnm⟩ := hsame
    subst hr
    subst hnm
    rw [segmentsUnderKey_addLine_self, insertStreet_geometry_lines]
    rw [flatSegments_add_other _ _ _ _ hk, ← segmentsUnderKey_eq_flat]
  · push_neg at hsame
    have hor : r ≠ seg.m_region ∨ nm ≠ fb.getName := by
      by_cases hr : r = seg.m_region
      · exact Or.inr (hsame hr)
      · exact Or.inl hr
    rw [segmentsUnderKey_addLine_other _ _ _ _ _ _ _ _ hor, segmentsUnderKey_insertStreet]

theorem foldl_addStreetHighwayStep_mono (fb : FeatureBuilder) (n : Nat)
    (segs : List PathSegment) :
    ∀ (st : StreetsBuilderState) (r : Nat) (nm : String) (k : GeoObjectId) (x : List Point),
      x ∈ segmentsUnderKey st.m_regions r nm k →
      x ∈ segmentsUnderKey ((segs.foldl (addStreetHighwayStep fb n) st)).m_regions r nm k := by
  induction segs with
  | nil => intro st r nm k x hx; exact hx
  | cons seg rest ih =>
    intro st r nm k x hx
    rw [List.foldl_cons]
    exact ih _ r nm k x (addStreetHighwayStep_mono fb n st seg r nm k x hx)

theorem foldl_addStreetHighwayStep_surrogate_mem (fb : FeatureBuilder) (n : Nat)
    (hn : n ≠ 1) (segs : List PathSegment) :
    ∀ (st : StreetsBuilderState) (i : Nat) (hi : i < segs.length),
      (segs.get ⟨i, hi⟩).m_path ∈ segmentsUnderKey
        ((segs.foldl (addStreetHighwayStep fb n) st)).m_regions
        (segs.get ⟨i, hi⟩).m_region fb.getName
        ⟨GeoIdType.osmSurrogate, st.m_osmSurrogateCounter + i + 1⟩ := by
  induction segs with
  | nil =>
    intro st i hi
    exact absurd hi (by simp)
  | cons seg rest ih =>
    intro st i hi
    rw [List.foldl_cons]
    cases i with
    | zero =>
      have hadd := addStreetHighwayStep_adds fb n st seg
      have hkey : chosenLineKey fb n st.m_osmSurrogateCounter
          = ⟨GeoIdType.osmSurrogate, st.m_osmSurrogateCounter + 1⟩ := by
        unfold chosenLineKey
        rw [if_neg hn]
      rw [hkey] at hadd
      exact foldl_addStreetHighwayStep_mono fb n rest (addStreetHighwayStep fb n st seg)
        seg.m_region fb.getName _ _ hadd
    | succ j =>
      have hj : j < rest.length := by
        simpa using hi
      have hthis := ih (addStreetHighwayStep fb n st seg) j hj
      rw [addStreetHighwayStep_counter fb n st seg hn] at hthis
      have harith : st.m_osmSurrogateCounter + 1 + j + 1
          = st.m_osmSurrogateCounter + (j + 1) + 1 := by omega
      rw [harith] at hthis
      exact hthis

theorem foldl_addStreetHighwayStep_native_unchanged (fb : FeatureBuilder) (n : Nat)
    (hn : n ≠ 1) (hnative : fb.osmId.idType ≠ GeoIdType.osmSurrogate)
    (segs : List PathSegment) :
    ∀ (st : StreetsBuilderState) (r : Nat) (nm : String),
      segmentsUnderKey ((segs.foldl (addStreetHighwayStep fb n) st)).m_regions r nm fb.osmId
        = segmentsUnderKey st.m_regions r nm fb.osmId := by
  induction segs with
  | nil => intro st r nm; rfl
  | cons seg rest ih =>
    intro st r nm
    rw [List.foldl_cons, ih]
    apply addStreetHighwayStep_other_key
    unfold chosenLineKey
    rw [if_neg hn]
    intro hcontra
    exact hnative (by rw [← hcontra])

theorem addStreetHighway_single_native (fb : FeatureBuilder) (seg : PathSegment)
    (st : StreetsBuilderState) :
    seg.m_path ∈ segmentsUnderKey (addStreetHighway fb [seg] st).m_regions
      seg.m_region fb.getName fb.osmId := by
  have hadd := addStreetHighwayStep_adds fb 1 st seg
  have hkey : chosenLineKey fb 1 st.m_osmSurrogateCounter = fb.osmId := by
    unfold chosenLineKey
    rw [if_pos rfl]
  rw [hkey] at hadd
  exact hadd

/-- C5: in AddStreetHighway, a single traced segment is stored under the raw
element's native identity (with the surrogate counter untouched); several traced
segments are each stored under a distinct freshly minted surrogate identity
drawn from consecutive counter values, the surrogate identities never equal the
native identity, and nothing is stored under the native identity. -/
theorem c5_line_contribution_keying (fb : FeatureBuilder) (segs : List PathSegment)
    (st : StreetsBuilderState)
    (hnative : fb.osmId.idType ≠ GeoIdType.osmSurrogate) :
    (∀ seg : PathSegment, segs = [seg] →
        seg.m_path ∈ segmentsUnderKey (addStreetHighway fb segs st).m_regions
          seg.m_region fb.getName fb.osmId)
      ∧ (1 < segs.length →
          (∀ i : Nat, ∀ hi : i < segs.length,
              (segs.get ⟨i, hi⟩).m_path ∈ segmentsUnderKey
                (addStreetHighway fb segs st).m_regions
                (segs.get ⟨i, hi⟩).m_region fb.getName
                ⟨GeoIdType.osmSurrogate, st.m_osmSurrogateCounter + i + 1⟩)
            ∧ (∀ i j : Nat, i ≠ j →
                (⟨GeoIdType.osmSurrogate, st.m_osmSurrogateCounter + i + 1⟩ : GeoObjectId)
                  ≠ ⟨GeoIdType.osmSurrogate, st.m_osmSurrogateCounter + j + 1⟩)
            ∧ (∀ (r : Nat) (nm : String),
                segmentsUnderKey (addStreetHighway fb segs st).m_regions r nm fb.osmId
                  = segmentsUnderKey st.m_regions r nm fb.osmId)
            ∧ (∀ i : Nat,
                (⟨GeoIdType.osmSurrogate, st.m_osmSurrogateCounter + i + 1⟩ : GeoObjectId)
                  ≠ fb.osmId)) := by
  constructor
  · intro seg hseg
    subst hseg
    exact addStreetHighway_single_native fb seg st
  · intro hlen
    have hn : segs.length ≠ 1 := by omega
    refine ⟨?_, ?_, ?_, ?_⟩
    · intro i hi
      exact foldl_addStreetHighwayStep_surrogate_mem fb segs.length hn segs st i hi
    · intro i j hij hcontra
      apply hij
      have hser := congrArg GeoObjectId.serial hcontra
      simp only at hser
      omega
    · intro r nm
      exact foldl_addStreetHighwayStep_native_unchanged fb segs.length hn hnative segs st r nm
    · intro i hcontra
      exact hnative (by rw [← hcontra])

def c5Feature : FeatureBuilder :=
  ⟨⟨[(0, "Lane")]⟩, ⟨GeoIdType.osmWay, 9⟩, FeatureGeom.line [(0, 0), (2, 0)], []⟩

def c5Segments : List PathSegment := [⟨4, [(0, 0), (1, 0)]⟩, ⟨5, [(1, 0), (2, 0)]⟩]

/-- C5 witness: the keying theorem applied to a concrete two-segment tracing. -/
theorem c5_witness :
    c5Feature.osmId.idType ≠ GeoIdType.osmSurrogate
      ∧ (1 < c5Segments.length →
          ∀ i : Nat, ∀ hi : i < c5Segments.length,
            (c5Segments.get ⟨i, hi⟩).m_path ∈ segmentsUnderKey
              (addStreetHighway c5Feature c5Segments ⟨[], [], 0⟩).m_regions
              (c5Segments.get ⟨i, hi⟩).m_region c5Feature.getName
              ⟨GeoIdType.osmSurrogate,
                (⟨[], [], 0⟩ : StreetsBuilderState).m_osmSurrogateCounter + i + 1⟩) :=
  ⟨by decide, fun hlen =>
    ((c5_line_contribution_keying c5Feature c5Segments ⟨[], [], 0⟩ (by decide)).2 hlen).1⟩

/-! ### Pass 3: regenerating the aggregated street features -/

/-- Point emission of WriteAsAggregatedStreet (streets_builder.cpp:98): one point
feature at the explicit pin when one is set. -/
def aggregatedPointPart (fb2 : FeatureBuilder) (g : StreetGeometry) : List FeatureBuilder :=
  match g.pin with
  | some p => [{ fb2 with geom := FeatureGeom.point p.m_position }]
  | none => []

/-- Area emission of WriteAsAggregatedStreet (streets_builder.cpp:109): one area
feature per area contribution. -/
def aggregatedAreaPart (fb2 : FeatureBuilder) (g : StreetGeometry) : List FeatureBuilder :=
  g.areas.map (fun a => { fb2 with geom := FeatureGeom.area a.m_border })

/-- Line emission of WriteAsAggregatedStreet (streets_builder.cpp:118): one line
feature per stored segment of every line contribution. -/
def aggregatedLinePart (fb2 : FeatureBuilder) (g : StreetGeometry) : List FeatureBuilder :=
  (g.lines.map
    (fun l => l.m_segments.map (fun sp => { fb2 with geom := FeatureGeom.line sp }))).flatten

/-- StreetsBuilder::WriteAsAggregatedStreet (streets_builder.cpp:89): rewrite the
raw feature to carry the street's merged name and the chosen pin's identity, then
emit the pin feature (when an explicit pin is set) and — when highway geometry is
present — the area and line features. -/
def writeAsAggregatedStreet (fb : FeatureBuilder) (street : Street) : List FeatureBuilder :=
  let fb2 : FeatureBuilder :=
    { fb with
      fbMultilangName := street.m_name
      osmId := street.m_geometry.getOrChoosePin.m_osmId }
  if street.m_geometry.hasHighwayGeometry then
    aggregatedPointPart fb2 street.m_geometry ++ aggregatedAreaPart fb2 street.m_geometry
      ++ aggregatedLinePart fb2 street.m_geometry
  else aggregatedPointPart fb2 street.m_geometry

/-- The fold state of pass 3: streets already emitted and the output stream. -/
structure Pass3State where
  processedStreets : List StreetKey
  output : List FeatureBuilder
deriving DecidableEq

/-- Per-feature transform of pass 3 (streets_builder.cpp:72): look the feature's
most generic identity up in the reverse index; when absent do nothing, when the
owning street was already processed do nothing, otherwise mark the street
processed and append the aggregated street features to the output. -/
def pass3Step (idx : StreetIndex) (streetOf : StreetKey → Street)
    (s : Pass3State) (fb : FeatureBuilder) : Pass3State :=
  match lookupAssoc idx fb.osmId with
  | none => s
  | some key =>
    if key ∈ s.processedStreets then s
    else ⟨key :: s.processedStreets, s.output ++ writeAsAggregatedStreet fb (streetOf key)⟩

/-- StreetsBuilder::RegenerateAggregatedStreetsFeatures (streets_builder.cpp:63),
stream-transform part: fold the per-feature step over the input features and
collect the output stream. -/
def regenerateAggregatedStreets (idx : StreetIndex) (streetOf : StreetKey → Street)
    (features : List FeatureBuilder) : List FeatureBuilder :=
  (features.foldl (pass3Step idx streetOf) ⟨[], []⟩).output

/-! ### Claim C1 -/

/-- A trivial street resolver for concrete pass-3 runs. -/
def emptyStreetOf : StreetKey → Street := fun _ => Street.emptyStreet

def c1Feature : FeatureBuilder :=
  ⟨⟨[(0, "Lost")]⟩, ⟨GeoIdType.osmWay, 40⟩, FeatureGeom.line [(0, 0), (1, 1)], []⟩

/-- C1 counterexample: pass 3 over a stream holding one feature whose identity is
absent from the reverse index yields an empty output stream — the feature is
dropped, not passed through unchanged as the claim states. -/
theorem c1_counterexample :
    regenerateAggregatedStreets [] emptyStreetOf [c1Feature] = []
      ∧ ([] : List FeatureBuilder) ≠ [c1Feature] := by
  constructor
  · rfl
  · decide

/-- C1 (amended): a raw feature whose most generic identity is absent from the
reverse index contributes nothing to the pass-3 output stream — removing it from
the input leaves the output unchanged; it is dropped rather than passed
through. -/
theorem c1_unindexed_feature_dropped (idx : StreetIndex) (streetOf : StreetKey → Street)
    (pre post : List FeatureBuilder) (fb : FeatureBuilder)
    (habs : lookupAssoc idx fb.osmId = none) :
    regenerateAggregatedStreets idx streetOf (pre ++ fb :: post)
      = regenerateAggregatedStreets idx streetOf (pre ++ post) := by
  unfold regenerateAggregatedStreets
  rw [List.foldl_append, List.foldl_append, List.foldl_cons]
  have hstep : ∀ s : Pass3State, pass3Step idx streetOf s fb = s := by
    intro s
    unfold pass3Step
    rw [habs]
  rw [hstep]

/-- C1 witness: the amended theorem applied at a concrete unindexed feature. -/
theorem c1_witness :
    lookupAssoc ([] : StreetIndex) c1Feature.osmId = none
      ∧ regenerateAggregatedStreets [] emptyStreetOf ([] ++ c1Feature :: [])
          = regenerateAggregatedStreets [] emptyStreetOf ([] ++ []) :=
  ⟨rfl, c1_unindexed_feature_dropped [] emptyStreetOf [] [] c1Feature rfl⟩

/-! ### Claim C6 -/

theorem mem_aggregatedPointPart_name (fb2 : FeatureBuilder) (g : StreetGeometry)
    (out : FeatureBuilder) (h : out ∈ aggregatedPointPart fb2 g) :
    out.fbMultilangName = fb2.fbMultilangName := by
  unfold aggregatedPointPart at h
  cases hp : g.pin with
  | none =>
    rw [hp] at h
    cases h
  | some p =>
    rw [hp] at h
    rw [List.mem_singleton] at h
    subst h
    rfl

theorem mem_aggregatedAreaPart_name (fb2 : FeatureBuilder) (g : StreetGeometry)
    (out : FeatureBuilder) (h : out ∈ aggregatedAreaPart fb2 g) :
    out.fbMultilangName = fb2.fbMultilangName := by
  unfold aggregatedAreaPart at h
  rw [List.mem_map] at h
  obtain ⟨a, _, rfl⟩ := h
  rfl

theorem mem_aggregatedLinePart_name (fb2 : FeatureBuilder) (g : StreetGeometry)
    (out : FeatureBuilder) (h : out ∈ aggregatedLinePart fb2 g) :
    out.fbMultilangName = fb2.fbMultilangName := by
  unfold aggregatedLinePart at h
  rw [List.mem_flatten] at h
  obtain ⟨inner, hinner, hout⟩ := h
  rw [List.mem_map] at hinner
  obtain ⟨l, _, rfl⟩ := hinner
  rw [List.mem_map] at hout
  obtain ⟨sp, _, rfl⟩ := hout
  rfl

theorem aggregatedPointPart_length (fb2 : FeatureBuilder) (g : StreetGeometry) :
    (aggregatedPointPart fb2 g).length = if g.pin.isSome then 1 else 0 := by
  unfold aggregatedPointPart
  cases hp : g.pin <;> simp

theorem aggregatedLinePart_length (fb2 : FeatureBuilder) (g : StreetGeometry) :
    (aggregatedLinePart fb2 g).length = (g.lines.map (fun l => l.m_segments.length)).sum := by
  unfold aggregatedLinePart
  rw [List.length_flatten, List.map_map]
  simp [Function.comp_def, List.length_map]

theorem hasHighwayGeometry_false_shape (g : StreetGeometry)
    (h : g.hasHighwayGeometry = false) : g.lines = [] ∧ g.areas = [] := by
  unfold StreetGeometry.hasHighwayGeometry at h
  rw [Bool.not_eq_false'] at h
  rw [Bool.and_eq_true] at h
  exact ⟨List.isEmpty_iff.mp h.1, List.isEmpty_iff.mp h.2⟩

theorem writeAsAggregatedStreet_name (fb : FeatureBuilder) (street : Street) :
    ∀ out ∈ writeAsAggregatedStreet fb street, out.fbMultilangName = street.m_name := by
  intro out hout
  unfold writeAsAggregatedStreet at hout
  by_cases hg : street.m_geometry.hasHighwayGeometry
  · rw [if_pos hg] at hout
    rw [List.mem_append, List.mem_append] at hout
    rcases hout with (hout | hout) | hout
    · exact mem_aggregatedPointPart_name _ _ _ hout
    · exact mem_aggregatedAreaPart_name _ _ _ hout
    · exact mem_aggregatedLinePart_name _ _ _ hout
  · rw [if_neg hg] at hout
    exact mem_aggregatedPointPart_name _ _ _ hout

theorem writeAsAggregatedStreet_length (fb : FeatureBuilder) (street : Street) :
    (writeAsAggregatedStreet fb street).length
      = (if street.m_geometry.pin.isSome then 1 else 0)
        + street.m_geometry.areas.length
        + (street.m_geometry.lines.map (fun l => l.m_segments.length)).sum := by
  unfold writeAsAggregatedStreet
  by_cases hg : street.m_geometry.hasHighwayGeometry
  · rw [if_pos hg]
    rw [List.length_append, List.length_append]
    rw [aggregatedPointPart_length, aggregatedLinePart_length]
    unfold aggregatedAreaPart
    rw [List.length_map]
  · rw [if_neg hg]
    obtain ⟨hl, ha⟩ := hasHighwayGeometry_false_shape street.m_geometry
      (Bool.not_eq_true _ ▸ hg)
    rw [aggregatedPointPart_length, hl, ha]
    simp

theorem writeAsAggregatedStreet_pin_geom (fb : FeatureBuilder) (street : Street)
    (p : Pin) (hp : street.m_geometry.pin = some p) :
    FeatureGeom.point p.m_position
      ∈ (writeAsAggregatedStreet fb street).map (fun o => o.geom) := by
  unfold writeAsAggregatedStreet
  have hpt : FeatureGeom.point p.m_position
      ∈ (aggregatedPointPart
          { fb with
            fbMultilangName := street.m_name
            osmId := street.m_geometry.getOrChoosePin.m_osmId } street.m_geometry).map
          (fun o => o.geom) := by
    unfold aggregatedPointPart
    rw [hp]
    simp
  by_cases hg : street.m_geometry.hasHighwayGeometry
  · rw [if_pos hg]
    rw [List.map_append, List.map_append, List.mem_append, List.mem_append]
    exact Or.inl (Or.inl hpt)
  · rw [if_neg hg]
    exact hpt

/-- C6: for a raw feature resolving through the reverse index to a street, the
first feature observed for that street extends the output stream by exactly the
aggregated street features — one point feature at the explicit pin when set, one
area feature per area contribution, one line feature per stored segment, all
carrying the street's merged name — and every later feature resolving to the
same street leaves the pass-3 state untouched. -/
theorem c6_first_feature_emits_then_dedup (idx : StreetIndex)
    (streetOf : StreetKey → Street) (s : Pass3State) (fb : FeatureBuilder)
    (key : StreetKey) (hfound : lookupAssoc idx fb.osmId = some key) :
    (key ∉ s.processedStreets →
        pass3Step idx streetOf s fb
          = ⟨key :: s.processedStreets,
             s.output ++ writeAsAggregatedStreet fb (streetOf key)⟩)
      ∧ (key ∈ s.processedStreets → pass3Step idx streetOf s fb = s)
      ∧ (∀ out ∈ writeAsAggregatedStreet fb (streetOf key),
          out.fbMultilangName = (streetOf key).m_name)
      ∧ ((writeAsAggregatedStreet fb (streetOf key)).length
          = (if (streetOf key).m_geometry.pin.isSome then 1 else 0)
            + (streetOf key).m_geometry.areas.length
            + ((streetOf key).m_geometry.lines.map (fun l => l.m_segments.length)).sum)
      ∧ (∀ p : Pin, (streetOf key).m_geometry.pin = some p →
          FeatureGeom.point p.m_position
            ∈ (writeAsAggregatedStreet fb (streetOf key)).map (fun o => o.geom)) := by
  refine ⟨?_, ?_, ?_, ?_, ?_⟩
  · intro hnot
    unfold pass3Step
    rw [hfound]
    show (if key ∈ s.processedStreets then s
        else (⟨key :: s.processedStreets,
          s.output ++ writeAsAggregatedStreet fb (streetOf key)⟩ : Pass3State)) = _
    rw [if_neg hnot]
  · intro hmem
    unfold pass3Step
    rw [hfound]
    show (if key ∈ s.processedStreets then s
        else (⟨key :: s.processedStreets,
          s.output ++ writeAsAggregatedStreet fb (streetOf key)⟩ : Pass3State)) = _
    rw [if_pos hmem]
  · exact writeAsAggregatedStreet_name fb (streetOf key)
  · exact writeAsAggregatedStreet_length fb (streetOf key)
  · intro p hp
    exact writeAsAggregatedStreet_pin_geom fb (streetOf key) p hp

def c6Key : StreetKey := (2, "Ave")

def c6Street : Street :=
  ⟨⟨[(0, "Ave")]⟩,
    ⟨some ⟨(1, 1), ⟨GeoIdType.osmNode, 3⟩⟩,
      [⟨⟨GeoIdType.osmSurrogate, 1⟩, [[(0, 0), (1, 0)]]⟩],
      [⟨⟨GeoIdType.osmWay, 4⟩, [(0, 0), (0, 1)]⟩]⟩⟩

def c6StreetOf : StreetKey → Street := fun _ => c6Street

def c6Feature : FeatureBuilder :=
  ⟨⟨[(0, "Ave")]⟩, ⟨GeoIdType.osmWay, 11⟩, FeatureGeom.line [(0, 0)], []⟩

def c6Index : StreetIndex := [(⟨GeoIdType.osmWay, 11⟩, c6Key)]

/-- C6 witness: the emission and deduplication theorem applied at a concrete
index, street, and feature. -/
theorem c6_witness :
    lookupAssoc c6Index c6Feature.osmId = some c6Key
      ∧ (c6Key ∉ (⟨[], []⟩ : Pass3State).processedStreets →
          pass3Step c6Index c6StreetOf ⟨[], []⟩ c6Feature
            = ⟨c6Key :: (⟨[], []⟩ : Pass3State).processedStreets,
               (⟨[], []⟩ : Pass3State).output
                 ++ writeAsAggregatedStreet c6Feature (c6StreetOf c6Key)⟩) :=
  ⟨by decide,
    (c6_first_feature_emits_then_dedup c6Index c6StreetOf ⟨[], []⟩ c6Feature c6Key
      (by decide)).1⟩

/-! ### Claim C7 -/

/-- The address attributes of a candidate region inspected by the region filter:
presence of the suburb, sublocality, and locality fields in the region's
default-locale address. -/
structure RegionAddress where
  hasSuburb : Bool
  hasSublocality : Bool
  hasLocality : Bool
deriving DecidableEq

/-- The isStreetAdministrator filter of StreetsBuilder::FindStreetRegionOwner
(streets_builder.cpp:237): reject a region carrying a suburb or sublocality
field, and reject a region without a locality field when needLocality is
requested. -/
def isStreetAdministrator (needLocality : Bool) (addr : RegionAddress) : Bool :=
  if addr.hasSuburb then false
  else if addr.hasSublocality then false
  else if needLocality && !addr.hasLocality then false
  else true

/-- Modelled from the spec: the defaulted needLocality argument of
FindStreetRegionOwner is declared in streets_builder.hpp, which is absent from
src; the highway-tracing call site passes no explicit flag and the spec states
that line tracing resolves without the locality requirement, so the default is
false. -/
def findStreetRegionOwnerDefaultNeedLocality : Bool := false

def areaNeedLocality : Bool := true -- AddStreetArea (streets_builder.cpp:193) passes true

def pointNeedLocality : Bool := true -- AddStreetPoint (streets_builder.cpp:208) passes true

def bindingNeedLocality : Bool := findStreetRegionOwnerDefaultNeedLocality -- AddStreetBinding (streets_builder.cpp:224) passes no flag

def highwayNeedLocality : Bool := findStreetRegionOwnerDefaultNeedLocality -- AddStreetHighway (streets_builder.cpp:173) passes no flag

def bareAdminRegion : RegionAddress := ⟨false, false, false⟩

/-- C7 counterexample: AddStreetBinding and AddStreetHighway resolve region
ownership through the same defaulted needLocality flag, so their filters agree on
every region; on a bare administrative region without a locality field the
binding filter accepts, refuting the claim that address-point bindings reject
locality-less regions while line tracing accepts them (the third conjunct shows
the filter with needLocality set would reject, so no value of the shared default
satisfies the claimed asymmetry). -/
theorem c7_counterexample :
    isStreetAdministrator bindingNeedLocality bareAdminRegion
        = isStreetAdministrator highwayNeedLocality bareAdminRegion
      ∧ isStreetAdministrator bindingNeedLocality bareAdminRegion = true
      ∧ isStreetAdministrator true bareAdminRegion = false := by
  decide

/-- C7 (amended): area and point streets require a locality-bearing region (their
call sites pass needLocality = true, so the filter equals the region's locality
presence once suburb/sublocality are ruled out), while address-point bindings and
line tracing both use the defaulted flag and accept any non-suburb,
non-sublocality administrative region without a locality requirement. -/
theorem c7_locality_requirements (addr : RegionAddress)
    (hsub : addr.hasSuburb = false) (hsubloc : addr.hasSublocality = false) :
    isStreetAdministrator areaNeedLocality addr = addr.hasLocality
      ∧ isStreetAdministrator pointNeedLocality addr = addr.hasLocality
      ∧ isStreetAdministrator bindingNeedLocality addr = true
      ∧ isStreetAdministrator highwayNeedLocality addr = true := by
  cases hloc : addr.hasLocality <;>
    simp [isStreetAdministrator, areaNeedLocality, pointNeedLocality, bindingNeedLocality,
      highwayNeedLocality, findStreetRegionOwnerDefaultNeedLocality, hsub, hsubloc, hloc]

/-- C7 witness: the amended theorem applied at the bare administrative region. -/
theorem c7_witness :
    bareAdminRegion.hasSuburb = false
      ∧ bareAdminRegion.hasSublocality = false
      ∧ (isStreetAdministrator areaNeedLocality bareAdminRegion = bareAdminRegion.hasLocality
        ∧ isStreetAdministrator pointNeedLocality bareAdminRegion = bareAdminRegion.hasLocality
        ∧ isStreetAdministrator bindingNeedLocality bareAdminRegion = true
        ∧ isStreetAdministrator highwayNeedLocality bareAdminRegion = true) :=
  ⟨rfl, rfl, c7_locality_requirements bareAdminRegion rfl rfl⟩

/-! ### Claim C10 -/

inductive OsmEntityType where
  | node
  | way
  | relation
deriving DecidableEq

structure OsmTag where
  m_key : String
  m_value : String
deriving DecidableEq

/-- An OsmElement as consumed by IsStreet: entity type plus tag list
(generator/osm_element.cpp). -/
structure OsmElement where
  m_type : OsmEntityType
  m_tags : List OsmTag
deriving DecidableEq

/-- OsmElement::GetTagValue (osm_element.cpp:192): the value of the first tag with
the given key, or the supplied default. -/
def OsmElement.getTagValue (e : OsmElement) (key deflt : String) : String :=
  match e.m_tags.find? (fun t => t.m_key == key) with
  | some t => t.m_value
  | none => deflt

/-- OsmElement::HasTag (osm_element.cpp:101). -/
def OsmElement.hasTag (e : OsmElement) (key : String) : Bool :=
  e.m_tags.any (fun t => t.m_key == key)

/-- OsmElement::HasTag with a value (osm_element.cpp:108). -/
def OsmElement.hasTagValue (e : OsmElement) (key value : String) : Bool :=
  e.m_tags.any (fun t => t.m_key == key && t.m_value == value)

def OsmElement.isWay (e : OsmElement) : Bool := e.m_type == OsmEntityType.way

def OsmElement.isRelation (e : OsmElement) : Bool := e.m_type == OsmEntityType.relation

/-- StreetsBuilder::IsStreet on OsmElement (streets_builder.cpp:316). -/
def isStreetOsmElement (e : OsmElement) : Bool :=
  if (e.getTagValue "name" "").isEmpty then false
  else if e.hasTag "highway" && (e.isWay || e.isRelation) then true
  else if e.hasTagValue "place" "square" then true
  else false

def FeatureGeom.isLineGeom : FeatureGeom → Bool
  | FeatureGeom.line _ => true
  | _ => false

def FeatureGeom.isAreaGeom : FeatureGeom → Bool
  | FeatureGeom.area _ => true
  | _ => false

/-- StreetsBuilder::IsStreet on FeatureBuilder (streets_builder.cpp:331), with the
IsWayChecker and IsSquareChecker ftypes matchers injected as classifier
oracles. -/
def isStreetFeatureBuilder (wayChecker squareChecker : List Nat → Bool)
    (fb : FeatureBuilder) : Bool :=
  if fb.getName.isEmpty then false
  else if wayChecker fb.fbTypes && (fb.geom.isLineGeom || fb.geom.isAreaGeom) then true
  else if squareChecker fb.fbTypes then true
  else false

/-- C10: an element without a nonempty name is never classified as a street or
square: when every name tag of an OsmElement carries the empty value (absence
included), IsStreet returns false whatever the highway or place tags say, and
when a FeatureBuilder's name is empty, IsStreet returns false whatever the
classifier oracles and feature types say. -/
theorem c10_unnamed_never_street (e : OsmElement) (fb : FeatureBuilder)
    (wayChecker squareChecker : List Nat → Bool)
    (he : ∀ t ∈ e.m_tags, t.m_key = "name" → t.m_value = "")
    (hfb : fb.getName = "") :
    isStreetOsmElement e = false
      ∧ isStreetFeatureBuilder wayChecker squareChecker fb = false := by
  constructor
  · have hval : (e.getTagValue "name" "").isEmpty = true := by
      unfold OsmElement.getTagValue
      cases hfind : e.m_tags.find? (fun t => t.m_key == "name") with
      | none => rfl
      | some t =>
        have hmem := List.mem_of_find?_eq_some hfind
        have hpred := List.find?_some hfind
        rw [beq_iff_eq] at hpred
        have hv := he t hmem hpred
        show t.m_value.isEmpty = true
        rw [hv]
        rfl
    unfold isStreetOsmElement
    simp [hval]
  · have hval : fb.getName.isEmpty = true := by
      rw [hfb]
      rfl
    unfold isStreetFeatureBuilder
    simp [hval]

def c10Element : OsmElement :=
  ⟨OsmEntityType.way, [⟨"name", ""⟩, ⟨"highway", "residential"⟩, ⟨"place", "square"⟩]⟩

def c10Feature : FeatureBuilder :=
  ⟨emptyMultilang, ⟨GeoIdType.osmWay, 5⟩, FeatureGeom.line [(0, 0)], [1, 2]⟩

/-- C10 witness: the theorem applied to a concretely unnamed way with highway and
place tags, and to an unnamed line feature under all-accepting oracles. -/
theorem c10_witness :
    (∀ t ∈ c10Element.m_tags, t.m_key = "name" → t.m_value = "")
      ∧ c10Feature.getName = ""
      ∧ (isStreetOsmElement c10Element = false
        ∧ isStreetFeatureBuilder (fun _ => true) (fun _ => true) c10Feature = false) :=
  ⟨by decide, by decide,
    c10_unnamed_never_street c10Element c10Feature (fun _ => true) (fun _ => true)
      (by decide) (by decide)⟩

/-! ### Claim C8 -/

def setAssoc {κ α : Type} [DecidableEq κ] (l : List (κ × α)) (k : κ) (v : α) : List (κ × α) :=
  updateAssoc l k v (fun _ => v)

def removeAssoc {κ α : Type} [DecidableEq κ] : List (κ × α) → κ → List (κ × α)
  | [], _ => []
  | (k, v) :: rest, key =>
    if k = key then removeAssoc rest key else (k, v) :: removeAssoc rest key

theorem lookupAssoc_setAssoc_self {κ α : Type} [DecidableEq κ]
    (l : List (κ × α)) (k : κ) (v : α) :
    lookupAssoc (setAssoc l k v) k = some v := by
  unfold setAssoc
  rw [lookupAssoc_updateAssoc_self]

theorem lookupAssoc_setAssoc_other {κ α : Type} [DecidableEq κ]
    (l : List (κ × α)) (k k2 : κ) (v : α) (h : k2 ≠ k) :
    lookupAssoc (setAssoc l k v) k2 = lookupAssoc l k2 := by
  unfold setAssoc
  exact lookupAssoc_updateAssoc_other l k k2 v _ h

theorem lookupAssoc_removeAssoc_self {κ α : Type} [DecidableEq κ]
    (l : List (κ × α)) (k : κ) :
    lookupAssoc (removeAssoc l k) k = none := by
  induction l with
  | nil => rfl
  | cons e rest ih =>
    obtain ⟨k0, v0⟩ := e
    by_cases hk : k0 = k
    · simp [removeAssoc, hk, ih]
    · simp [removeAssoc, lookupAssoc, hk, ih]

theorem lookupAssoc_removeAssoc_other {κ α : Type} [DecidableEq κ]
    (l : List (κ × α)) (k k2 : κ) (h : k2 ≠ k) :
    lookupAssoc (removeAssoc l k) k2 = lookupAssoc l k2 := by
  induction l with
  | nil => rfl
  | cons e rest ih =>
    obtain ⟨k0, v0⟩ := e
    by_cases hk : k0 = k
    · subst hk
      have hne : ¬(k0 = k2) := fun hh => h hh.symm
      simp [removeAssoc, lookupAssoc, hne, ih]
    · simp [removeAssoc, lookupAssoc, hk, ih]

/-- A file system mapping paths to feature-stream contents. -/
structure FileSys where
  files : List (String × List FeatureBuilder)
deriving DecidableEq

def FileSys.read (fs : FileSys) (p : String) : Option (List FeatureBuilder) :=
  lookupAssoc fs.files p

def FileSys.setFile (fs : FileSys) (p : String) (content : List FeatureBuilder) : FileSys :=
  ⟨setAssoc fs.files p content⟩

def FileSys.removeFile (fs : FileSys) (p : String) : FileSys :=
  ⟨removeAssoc fs.files p⟩

/-- Modelled from the spec: base::RenameFileX atomically replaces the destination
path with the source file (coding/internal/file_data, absent from src). -/
def FileSys.rename (fs : FileSys) (src dst : String) : FileSys :=
  match fs.read src with
  | none => fs
  | some content => FileSys.setFile (FileSys.removeFile fs src) dst content

/-- Modelled from the spec: the file discipline of
RegenerateAggregatedStreetsFeatures (streets_builder.cpp:63): the regenerated
feature stream is collected into a fresh temporary file (one collector write per
output feature), then RenameFileX atomically moves the temporary file over the
original path; the scope guard removes the temporary file on every exit path.
The parameter failAt simulates a write that throws: with failAt = some k and k
below the number of output features, the run aborts after k partial writes. -/
def regeneratePass3Files (fs : FileSys) (origPath tmpPath : String) (idx : StreetIndex)
    (streetOf : StreetKey → Street) (failAt : Option Nat) : Bool × FileSys :=
  let input := (fs.read origPath).getD []
  let outFeats := regenerateAggregatedStreets idx streetOf input
  match failAt with
  | some k =>
    if k < outFeats.length then
      (false, (FileSys.setFile fs tmpPath (outFeats.take k)).removeFile tmpPath)
    else
      (true, ((FileSys.setFile fs tmpPath outFeats).rename tmpPath origPath).removeFile tmpPath)
  | none =>
    (true, ((FileSys.setFile fs tmpPath outFeats).rename tmpPath origPath).removeFile tmpPath)

theorem regeneratePass3Files_success_fs (fs : FileSys) (origPath tmpPath : String)
    (idx : StreetIndex) (streetOf : StreetKey → Street) (hne : tmpPath ≠ origPath) :
    (((FileSys.setFile fs tmpPath
          (regenerateAggregatedStreets idx streetOf ((fs.read origPath).getD []))).rename
        tmpPath origPath).removeFile tmpPath).read origPath
        = some (regenerateAggregatedStreets idx streetOf ((fs.read origPath).getD []))
      ∧ (((FileSys.setFile fs tmpPath
            (regenerateAggregatedStreets idx streetOf ((fs.read origPath).getD []))).rename
          tmpPath origPath).removeFile tmpPath).read tmpPath = none := by
  have hwrote : (FileSys.setFile fs tmpPath
      (regenerateAggregatedStreets idx streetOf ((fs.read origPath).getD []))).read tmpPath
      = some (regenerateAggregatedStreets idx streetOf ((fs.read origPath).getD [])) :=
    lookupAssoc_setAssoc_self _ _ _
  unfold FileSys.rename
  rw [hwrote]
  constructor
  · show lookupAssoc (removeAssoc (setAssoc _ origPath _) tmpPath) origPath = _
    rw [lookupAssoc_removeAssoc_other _ _ _ (fun h => hne h.symm)]
    exact lookupAssoc_setAssoc_self _ _ _
  · show lookupAssoc (removeAssoc (setAssoc _ origPath _) tmpPath) tmpPath = none
    exact lookupAssoc_removeAssoc_self _ _

/-- C8: pass 3 never mutates the original path in place — a run that fails
partway through writing leaves the original file untouched (and the scope guard
removes the partially written temporary file), while a successful run makes the
full regenerated stream visible at the original path through the atomic rename;
in either case no temporary file remains visible. -/
theorem c8_atomic_replacement (fs : FileSys) (origPath tmpPath : String)
    (idx : StreetIndex) (streetOf : StreetKey → Street) (failAt : Option Nat)
    (hne : tmpPath ≠ origPath) :
    ((regeneratePass3Files fs origPath tmpPath idx streetOf failAt).1 = false →
        (regeneratePass3Files fs origPath tmpPath idx streetOf failAt).2.read origPath
          = fs.read origPath)
      ∧ ((regeneratePass3Files fs origPath tmpPath idx streetOf failAt).1 = true →
          (regeneratePass3Files fs origPath tmpPath idx streetOf failAt).2.read origPath
            = some (regenerateAggregatedStreets idx streetOf ((fs.read origPath).getD [])))
      ∧ (regeneratePass3Files fs origPath tmpPath idx streetOf failAt).2.read tmpPath
          = none := by
  have hsucc := regeneratePass3Files_success_fs fs origPath tmpPath idx streetOf hne
  unfold regeneratePass3Files
  cases failAt with
  | none =>
    refine ⟨?_, ?_, ?_⟩
    · intro hcontra
      cases hcontra
    · intro _
      exact hsucc.1
    · exact hsucc.2
  | some k =>
    by_cases hk : k < (regenerateAggregatedStreets idx streetOf
        ((fs.read origPath).getD [])).length
    · simp only [hk, if_pos hk]
      refine ⟨?_, ?_, ?_⟩
      · intro _
        show lookupAssoc (removeAssoc (setAssoc _ tmpPath _) tmpPath) origPath = _
        rw [lookupAssoc_removeAssoc_other _ _ _ (fun h => hne h.symm)]
        exact lookupAssoc_setAssoc_other _ _ _ _ (fun h => hne h.symm)
      · intro hcontra
        cases hcontra
      · show lookupAssoc (removeAssoc (setAssoc _ tmpPath _) tmpPath) tmpPath = none
        exact lookupAssoc_removeAssoc_self _ _
    · simp only [hk, if_neg hk]
      refine ⟨?_, ?_, ?_⟩
      · intro hcontra
        cases hcontra
      · intro _
        exact hsucc.1
      · exact hsucc.2

def c8Feature : FeatureBuilder :=
  ⟨⟨[(0, "Way")]⟩, ⟨GeoIdType.osmWay, 21⟩, FeatureGeom.line [(0, 0)], []⟩

def c8Index : StreetIndex := [(⟨GeoIdType.osmWay, 21⟩, (8, "Way"))]

def c8Street : Street :=
  ⟨⟨[(0, "Way")]⟩, ⟨some ⟨(0, 0), ⟨GeoIdType.osmNode, 22⟩⟩, [], []⟩⟩

def c8StreetOf : StreetKey → Street := fun _ => c8Street

def c8Fs : FileSys := ⟨[("streets.mwm", [c8Feature])]⟩

/-- C8 witness: the atomicity theorem applied at a concrete file system, with a
failure injected at the first write. -/
theorem c8_witness :
    ("streets.tmp" : String) ≠ "streets.mwm"
      ∧ ((regeneratePass3Files c8Fs "streets.mwm" "streets.tmp" c8Index c8StreetOf
            (some 0)).1 = false →
          (regeneratePass3Files c8Fs "streets.mwm" "streets.tmp" c8Index c8StreetOf
              (some 0)).2.read "streets.mwm"
            = c8Fs.read "streets.mwm") :=
  ⟨by decide,
    (c8_atomic_replacement c8Fs "streets.mwm" "streets.tmp" c8Index c8StreetOf (some 0)
      (by decide)).1⟩

/-! ### Claim C9 -/

/-- Modelled from the spec: the region-metadata record passed to the exporter;
hasLocales records whether the obligatory properties.locales field is present —
base::GetJSONObligatoryFieldByPath throws when it is missing. -/
structure RegionObj where
  hasLocales : Bool
deriving DecidableEq

/-- The non-I/O failure modes of the key-value exporter. -/
inductive ExportError where
  | missingRegionObject
  | missingLocalesField
deriving DecidableEq

/-- The street record shape emitted per street. -/
structure StreetValue where
  dref : Nat
  svName : StringUtf8Multilang
  svPin : Pin
deriving DecidableEq

/-- StreetsBuilder::MakeStreetValue (streets_builder.cpp:277), failure-relevant
shape: building the record reads the obligatory properties.locales field of the
region metadata, which throws when missing; every other step is total. -/
def makeStreetValue (regionId : Nat) (regionObject : RegionObj)
    (streetName : StringUtf8Multilang) (pin : Pin) : Except ExportError StreetValue :=
  if regionObject.hasLocales then Except.ok ⟨regionId, streetName, pin⟩
  else Except.error ExportError.missingLocalesField

/-- StreetsBuilder::SaveRegionStreetsKv (streets_builder.cpp:142): one record per
street of the region, keyed by the chosen pin's identity; the output stream is
modelled as the returned list of entries. -/
def saveRegionStreetsKv (streets : RegionStreets) (regionId : Nat)
    (regionInfo : RegionObj) : Except ExportError (List (GeoObjectId × StreetValue)) :=
  match streets with
  | [] => Except.ok []
  | (_, street) :: rest =>
    match makeStreetValue regionId regionInfo street.m_name
        street.m_geometry.getOrChoosePin with
    | Except.error e => Except.error e
    | Except.ok v =>
      match saveRegionStreetsKv rest regionId regionInfo with
      | Except.error e => Except.error e
      | Except.ok vs => Except.ok ((street.m_geometry.getOrChoosePin.m_osmId, v) :: vs)

/-- StreetsBuilder::SaveStreetsKv (streets_builder.cpp:131): for every region of
the registry, CHECK that the metadata getter yields a region object, then emit
the region's streets. -/
def saveStreetsKv (regionGetter : Nat → Option RegionObj) :
    Registry → Except ExportError (List (GeoObjectId × StreetValue))
  | [] => Except.ok []
  | (regionId, streets) :: rest =>
    match regionGetter regionId with
    | none => Except.error ExportError.missingRegionObject
    | some regionObject =>
      match saveRegionStreetsKv streets regionId regionObject with
      | Except.error e => Except.error e
      | Except.ok vs =>
        match saveStreetsKv regionGetter rest with
        | Except.error e => Except.error e
        | Except.ok vs2 => Except.ok (vs ++ vs2)

def c9NoMetadata : Nat → Option RegionObj := fun _ => none

def c9BadMetadata : Nat → Option RegionObj := fun _ => some ⟨false⟩

def c9GoodMetadata : Nat → Option RegionObj := fun _ => some ⟨true⟩

def c9Registry : Registry := [(5, [("Main", Street.emptyStreet)])]

/-- C9 counterexample: a registry region whose metadata getter yields nothing
trips the CHECK, and metadata lacking the obligatory locales field makes
MakeStreetValue throw — both are aborts caused by registry/metadata content
rather than sink I/O, refuting the claim that no such content can abort the
export. -/
theorem c9_counterexample :
    saveStreetsKv c9NoMetadata c9Registry = Except.error ExportError.missingRegionObject
      ∧ saveStreetsKv c9BadMetadata c9Registry
          = Except.error ExportError.missingLocalesField := by
  constructor
  · rfl
  · rfl

theorem saveRegionStreetsKv_ok (streets : RegionStreets) (regionId : Nat)
    (obj : RegionObj) (hloc : obj.hasLocales = true) :
    ∃ vs, saveRegionStreetsKv streets regionId obj = Except.ok vs := by
  induction streets with
  | nil => exact ⟨[], rfl⟩
  | cons se rest ih =>
    obtain ⟨vs, hvs⟩ := ih
    obtain ⟨nm2, street2⟩ := se
    have hmk : makeStreetValue regionId obj street2.m_name street2.m_geometry.getOrChoosePin
        = Except.ok ⟨regionId, street2.m_name, street2.m_geometry.getOrChoosePin⟩ := by
      unfold makeStreetValue
      rw [hloc]
      simp
    refine ⟨(street2.m_geometry.getOrChoosePin.m_osmId,
      ⟨regionId, street2.m_name, street2.m_geometry.getOrChoosePin⟩) :: vs, ?_⟩
    unfold saveRegionStreetsKv
    rw [hmk, hvs]

/-- C9 (amended): the key-value export aborts for non-I/O reasons exactly when
the region metadata is deficient — a registry region whose getter yields nothing
trips the CHECK, metadata without the obligatory locales field makes
MakeStreetValue throw — and when every registry region resolves to metadata
carrying the locales field, the export succeeds, leaving sink I/O as the only
remaining failure source. -/
theorem c9_export_total_given_metadata (regionGetter : Nat → Option RegionObj)
    (regs : Registry)
    (h : ∀ p ∈ regs, ∃ obj : RegionObj, regionGetter p.1 = some obj ∧ obj.hasLocales = true) :
    ∃ out, saveStreetsKv regionGetter regs = Except.ok out := by
  induction regs with
  | nil => exact ⟨[], rfl⟩
  | cons entry rest ih =>
    obtain ⟨regionId, streets⟩ := entry
    obtain ⟨obj, hobj, hloc⟩ := h (regionId, streets) (List.mem_cons_self _ _)
    obtain ⟨vs, hvs⟩ := saveRegionStreetsKv_ok streets regionId obj hloc
    obtain ⟨out2, hout2⟩ := ih (fun p hp => h p (List.mem_cons_of_mem _ hp))
    refine ⟨vs ++ out2, ?_⟩
    unfold saveStreetsKv
    rw [hobj]
    show (match saveRegionStreetsKv streets regionId obj with
      | Except.error e => Except.error e
      | Except.ok vs3 =>
        match saveStreetsKv regionGetter rest with
        | Except.error e => Except.error e
        | Except.ok vs2 => Except.ok (vs3 ++ vs2)) = Except.ok (vs ++ out2)
    rw [hvs, hout2]

/-- C9 witness: the amended theorem applied at a concrete registry whose single
region carries complete metadata. -/
theorem c9_witness :
    (∀ p ∈ c9Registry, ∃ obj : RegionObj,
        c9GoodMetadata p.1 = some obj ∧ obj.hasLocales = true)
      ∧ ∃ out, saveStreetsKv c9GoodMetadata c9Registry = Except.ok out :=
  ⟨fun _ _ => ⟨⟨true⟩, rfl, rfl⟩,
    c9_export_total_given_metadata c9GoodMetadata c9Registry
      (fun _ _ => ⟨⟨true⟩, rfl, rfl⟩)⟩

end Geocore
